import Mathlib

/-!
Shallow embedding of `parsejson.py` from the `sdep` repository.

The script loads a JSON dependency report for a static library, partitions
its `Content` mapping into empty and non-empty object files (`main`,
lines 124-126), and then either prints the leaf object files with
percentage statistics (`printLeaves`), prints the empty object files
(`printEmpty`), or verifies that a list of object-file names is
dependency-complete (`verify`).

Python dictionaries preserve insertion order, so mappings are modelled as
association lists in that order.  Python runtime errors that the script
does not catch (`ZeroDivisionError` from `/` with a zero denominator,
`ValueError` from `max` of an empty sequence) are modelled with `Except`.
-/

namespace Sdep

/-- A value of the raw `Content` mapping in the JSON report: either the
string sentinel `"EMPTY"` or an object `\x7b"Dependencies": [...]\x7d`. -/
inductive RawVal where
  | empty : RawVal
  | withDeps (dependencies : List String) : RawVal
deriving DecidableEq, Repr

/-- The report as loaded by `main` after the `slib_analysis` marker check:
the static-library name and the raw `Content` mapping, in key order. -/
structure RawReport where
  staticLibrary : String
  content : List (String × RawVal)
deriving DecidableEq, Repr

/-- The dictionary handed to the three operations, as transformed by
`main`: line 124 collects the keys whose value is the `"EMPTY"` sentinel
into `staticdep["Empty"]`, and line 126 rebuilds `staticdep["Content"]`
keeping only the non-EMPTY entries; a kept entry is accessed downstream
only through its `"Dependencies"` list. -/
structure Staticdep where
  staticLibrary : String
  content : List (String × List String)
  empty : List String
deriving DecidableEq, Repr

/-- Lines 124-126 of `main`:
`staticdep["Empty"] = [key for key, val in staticdep["Content"].items() if val == "EMPTY"]` and
`staticdep["Content"] = \x7bkey: val for key, val in staticdep["Content"].items() if val != "EMPTY"\x7d`. -/
def mkStaticdep (raw : RawReport) : Staticdep where
  staticLibrary := raw.staticLibrary
  empty := (raw.content.filter fun kv =>
    match kv.2 with
    | .empty => true
    | .withDeps _ => false).map (·.1)
  content := raw.content.filterMap fun kv =>
    match kv.2 with
    | .empty => none
    | .withDeps ds => some (kv.1, ds)

/-- Uncaught Python runtime errors the script can hit. -/
inductive PyError where
  | zeroDivisionError : PyError
  | valueError : PyError
deriving DecidableEq, Repr

/-- Python `max` on a list of naturals: raises `ValueError` on an empty
sequence, otherwise returns the maximum. -/
def pyMax : List Nat → Except PyError Nat
  | [] => .error .valueError
  | x :: xs => .ok (xs.foldl Nat.max x)

/-- The loop body of `printLeaves` (lines 15-18): the names of the
content entries whose `Dependencies` list is `[]`, in iteration order. -/
def leavesOf (slibContent : List (String × List String)) : List String :=
  (slibContent.filter fun kv => kv.2.isEmpty).map (·.1)

/-- Round a rational to the nearest integer with halves rounding to even.
CPython's `"\x7b0:.0f\x7d".format(x)` formats the double `x` by
correctly-rounded decimal conversion with ties going to the even digit,
so when the percentage expression is computed exactly in double
arithmetic (as for the ratio `1/8`, whose value `12.5` is a dyadic
rational) the printed integer is this rounding of the exact value. -/
def roundHalfEven (q : ℚ) : ℤ :=
  if q - ⌊q⌋ < 1/2 then ⌊q⌋
  else if 1/2 < q - ⌊q⌋ then ⌊q⌋ + 1
  else if ⌊q⌋ % 2 = 0 then ⌊q⌋ else ⌊q⌋ + 1

/-- What `printLeaves` (lines 4-25) prints: the leaf names in iteration
order, the three counters, and the two percentage lines.  The `Exact`
fields hold the exact value of the interpolated expression
(`(nbIndepObj / nbNonEmptyObj) * 100` and
`(nbIndepObj / (nbEmptyObj + nbNonEmptyObj)) * 100`); the `Printed`
fields hold the integer rendered by the `"\x7b2:.0f\x7d"` format. -/
structure LeavesResult where
  leaves : List String
  nbIndepObj : Nat
  nbNonEmptyObj : Nat
  nbEmptyObj : Nat
  pctNonEmptyExact : ℚ
  pctAllExact : ℚ
  pctNonEmptyPrinted : ℤ
  pctAllPrinted : ℤ
deriving Repr

/-- `printLeaves(staticdep)` (lines 4-25).  The loop prints the leaves
and counts them; line 23 then evaluates `nbIndepObj / nbNonEmptyObj`,
which raises an uncaught `ZeroDivisionError` when the library has no
non-empty object file.  (Line 25's denominator `nbEmptyObj +
nbNonEmptyObj` is positive whenever line 23 succeeded.) -/
def printLeaves (staticdep : Staticdep) : Except PyError LeavesResult :=
  let slibContent := staticdep.content
  let nbNonEmptyObj := slibContent.length
  let nbEmptyObj := staticdep.empty.length
  let leaves := leavesOf slibContent
  let nbIndepObj := leaves.length
  if nbNonEmptyObj = 0 then .error .zeroDivisionError
  else
    let q1 : ℚ := ((nbIndepObj : ℚ) / (nbNonEmptyObj : ℚ)) * 100
    let q2 : ℚ := ((nbIndepObj : ℚ) / ((nbEmptyObj : ℚ) + (nbNonEmptyObj : ℚ))) * 100
    .ok { leaves := leaves
          nbIndepObj := nbIndepObj
          nbNonEmptyObj := nbNonEmptyObj
          nbEmptyObj := nbEmptyObj
          pctNonEmptyExact := q1
          pctAllExact := q2
          pctNonEmptyPrinted := roundHalfEven q1
          pctAllPrinted := roundHalfEven q2 }

/-- One line of `verify`'s first loop: either the object file with its
dependency list (line 72-78) or the `"No object file ... found"` message
(line 80). -/
inductive VerifyEntry where
  | found (name : String) (dependencies : List String) : VerifyEntry
  | notFound (name : String) : VerifyEntry
deriving DecidableEq, Repr

/-- Line 67 of `verify`: `difference = set(dependencies) - set(objectFiles)`.
The Python set is modelled as a deduplicated list; the code uses it only
through membership (which dependencies are listed) and truthiness
(line 69's `if (difference)`), and neither depends on order. -/
def difference (dependencies objectFiles : List String) : List String :=
  (dependencies.filter fun d => !objectFiles.contains d).dedup

/-- What `verify` (lines 43-93) prints: the per-name lines of the first
loop in input order, the `incompleteObj` dictionary in first-insertion
order, and whether line 93 printed `COMPLETE` (iff `incompleteObj` is
falsy at line 83). -/
structure VerifyResult where
  entries : List VerifyEntry
  incompleteObj : List (String × List String)
  complete : Bool
deriving DecidableEq, Repr

/-- The first loop of `verify` (lines 62-80) over the worklist of input
names: an entry per name, and `(objectName, difference)` appended to
`incompleteObj` when the name is a content key and its `difference` is
non-empty. -/
def verifyLoop (slibContent : List (String × List String))
    (objectFiles : List String) : List String → List VerifyEntry × List (String × List String)
  | [] => ([], [])
  | objectName :: rest =>
    match slibContent.lookup objectName with
    | some dependencies =>
      (VerifyEntry.found objectName dependencies ::
          (verifyLoop slibContent objectFiles rest).1,
        if (difference dependencies objectFiles).isEmpty then
          (verifyLoop slibContent objectFiles rest).2
        else
          (objectName, difference dependencies objectFiles) ::
            (verifyLoop slibContent objectFiles rest).2)
    | none => (VerifyEntry.notFound objectName ::
        (verifyLoop slibContent objectFiles rest).1,
        (verifyLoop slibContent objectFiles rest).2)

/-- `verify(staticdep, objectlist, objectFiles)` (lines 43-93).  Line 53
takes `max` over the name lengths of the content keys, which raises an
uncaught `ValueError` when the content is empty — before any input name
is processed.  The resulting `maxLength` only pads columns, so it is
discarded here. -/
def verify (staticdep : Staticdep) (objectFiles : List String) :
    Except PyError VerifyResult :=
  match pyMax (staticdep.content.map fun kv => kv.1.length) with
  | .error e => .error e
  | .ok m =>
    let _maxLength := Nat.max m ("OBJ_FILE".length)
    let r := verifyLoop staticdep.content objectFiles objectFiles
    .ok { entries := r.1, incompleteObj := r.2, complete := r.2.isEmpty }

/-! ### Concrete reports used as test inputs -/

/-- A report whose only object file is empty, so after `main`'s filtering
the content handed to `printLeaves` has no non-empty object file. -/
def rawC3 : RawReport := ⟨"libc3.a", [("a.o", RawVal.empty)]⟩

/-- A report with one empty and one non-empty object file. -/
def rawC4 : RawReport := ⟨"libc4.a", [("a.o", RawVal.empty), ("b.o", RawVal.withDeps [])]⟩

/-- A report with no object files at all. -/
def rawC5 : RawReport := ⟨"libc5.a", []⟩

/-- Another report with no object files at all. -/
def rawC9 : RawReport := ⟨"libc9.a", []⟩

/-- A report whose two object files are both empty. -/
def rawC10 : RawReport := ⟨"libc10.a", [("e.o", RawVal.empty), ("f.o", RawVal.empty)]⟩

/-- A two-object report with a closed dependency graph. -/
def rawW1 : RawReport :=
  ⟨"libw1.a", [("a.o", RawVal.withDeps []), ("b.o", RawVal.withDeps ["a.o", "c.o"])]⟩

/-- A three-object report: a leaf, an empty file and a dependent file. -/
def rawW2 : RawReport :=
  ⟨"libw2.a",
    [("a.o", RawVal.withDeps []), ("b.o", RawVal.empty), ("c.o", RawVal.withDeps ["a.o"])]⟩

/-- A one-object report with a single non-empty object file. -/
def rawW5 : RawReport := ⟨"libw5.a", [("b.o", RawVal.withDeps [])]⟩

/-- A report whose single object file depends on itself and on another. -/
def rawW8 : RawReport := ⟨"libw8.a", [("s.o", RawVal.withDeps ["s.o", "t.o"])]⟩

/-- A one-object report whose object file has an unmet dependency. -/
def rawW9 : RawReport := ⟨"libw9.a", [("a.o", RawVal.withDeps ["z.o"])]⟩

/-! ### Helper lemmas -/

theorem mkStaticdep_length_partition (raw : RawReport) :
    (mkStaticdep raw).empty.length + (mkStaticdep raw).content.length =
      raw.content.length := by
  rcases raw with ⟨s, l⟩
  simp only [mkStaticdep, List.length_map]
  induction l with
  | nil => rfl
  | cons kv rest ih =>
    rcases kv with ⟨n, v⟩
    cases v with
    | empty =>
      simp [List.filter_cons, List.filterMap_cons]
      omega
    | withDeps ds =>
      simp [List.filter_cons, List.filterMap_cons]
      omega

theorem leavesOf_mkStaticdep (raw : RawReport) :
    leavesOf (mkStaticdep raw).content =
      (raw.content.filter fun kv =>
        match kv.2 with
        | RawVal.withDeps [] => true
        | _ => false).map (·.1) := by
  rcases raw with ⟨s, l⟩
  simp only [mkStaticdep]
  induction l with
  | nil => rfl
  | cons kv rest ih =>
    rcases kv with ⟨n, v⟩
    cases v with
    | empty => simpa [List.filter_cons, List.filterMap_cons] using ih
    | withDeps ds =>
      cases ds with
      | nil => simpa [List.filter_cons, List.filterMap_cons, leavesOf] using ih
      | cons d ds' => simpa [List.filter_cons, List.filterMap_cons, leavesOf] using ih

theorem lookup_mkStaticdep_of_not_mem_keys (l : List (String × RawVal)) (n : String)
    (h : n ∉ l.map (·.1)) :
    (l.filterMap fun kv =>
      match kv.2 with
      | RawVal.empty => none
      | RawVal.withDeps ds => some (kv.1, ds)).lookup n = none := by
  induction l with
  | nil => rfl
  | cons kv rest ih =>
    rcases kv with ⟨k, v⟩
    simp only [List.map_cons, List.mem_cons, not_or] at h
    cases v with
    | empty => simpa [List.filterMap_cons] using ih h.2
    | withDeps ds =>
      have hne : (n == k) = false := beq_eq_false_iff_ne.mpr h.1
      simp [List.filterMap_cons, List.lookup, hne, ih h.2]

theorem lookup_mkStaticdep_empty_entry (raw : RawReport) (n : String)
    (hnd : (raw.content.map (·.1)).Nodup)
    (hmem : (n, RawVal.empty) ∈ raw.content) :
    (mkStaticdep raw).content.lookup n = none := by
  rcases raw with ⟨s, l⟩
  simp only [mkStaticdep]
  simp only [List.map_cons] at hnd hmem ⊢
  induction l with
  | nil => cases hmem
  | cons kv rest ih =>
    rcases kv with ⟨k, v⟩
    simp only [List.map_cons, List.nodup_cons] at hnd
    rcases List.mem_cons.mp hmem with heq | hrest
    · rcases Prod.mk.injEq .. ▸ heq with ⟨hn, hv⟩
      subst hn
      cases hv
      simpa [List.filterMap_cons] using
        lookup_mkStaticdep_of_not_mem_keys rest n hnd.1
    · have hkey : n ∈ rest.map (·.1) := List.mem_map.mpr ⟨(n, RawVal.empty), hrest, rfl⟩
      have hne : (n == k) = false := by
        refine beq_eq_false_iff_ne.mpr ?_
        intro hnk
        exact hnd.1 (hnk ▸ hkey)
      cases v with
      | empty => simpa [List.filterMap_cons] using ih hnd.2 hrest
      | withDeps ds =>
        simp [List.filterMap_cons, List.lookup, hne, ih hnd.2 hrest]

theorem mem_difference {d : String} {dependencies objectFiles : List String} :
    d ∈ difference dependencies objectFiles ↔ d ∈ dependencies ∧ d ∉ objectFiles := by
  simp [difference, List.mem_dedup, List.mem_filter]

theorem difference_eq_nil_iff {dependencies objectFiles : List String} :
    difference dependencies objectFiles = [] ↔ ∀ d ∈ dependencies, d ∈ objectFiles := by
  constructor
  · intro h d hd
    by_contra hno
    have : d ∈ difference dependencies objectFiles := mem_difference.mpr ⟨hd, hno⟩
    simp [h] at this
  · intro h
    rcases hd : difference dependencies objectFiles with _ | ⟨d, ds⟩
    · rfl
    · have : d ∈ difference dependencies objectFiles := by simp [hd]
      rcases mem_difference.mp this with ⟨h1, h2⟩
      exact absurd (h d h1) h2

theorem verifyLoop_snd_mem (slibContent : List (String × List String))
    (objectFiles : List String) (n : String) (m : List String)
    (work : List String) :
    (n, m) ∈ (verifyLoop slibContent objectFiles work).2 ↔
      n ∈ work ∧ ∃ deps, slibContent.lookup n = some deps ∧
        m = difference deps objectFiles ∧ m ≠ [] := by
  induction work with
  | nil => simp [verifyLoop]
  | cons objectName rest ih =>
    rw [verifyLoop]
    cases hl : slibContent.lookup objectName with
    | some deps =>
      by_cases hd : (difference deps objectFiles).isEmpty
      · simp only [hd, if_pos, ih, List.mem_cons]
        constructor
        · rintro ⟨hw, hdeps⟩; exact ⟨Or.inr hw, hdeps⟩
        · rintro ⟨hw | hw, ⟨deps', hlk, hm, hne⟩⟩
          · subst hw
            rw [hl] at hlk
            cases hlk
            rw [List.isEmpty_iff] at hd
            exact absurd (hm.trans hd) hne
          · exact ⟨hw, deps', hlk, hm, hne⟩
      · simp only [hd, if_neg, Bool.false_eq_true, not_false_iff, List.mem_cons, ih,
          Prod.mk.injEq]
        rw [List.isEmpty_iff] at hd
        constructor
        · rintro (⟨hn, hm⟩ | ⟨hw, hdeps⟩)
          · exact ⟨Or.inl hn, deps, by rw [hn, hl], hm, by rw [hm]; exact hd⟩
          · exact ⟨Or.inr hw, hdeps⟩
        · rintro ⟨hw | hw, ⟨deps', hlk, hm, hne⟩⟩
          · subst hw
            rw [hl] at hlk
            cases hlk
            exact Or.inl ⟨rfl, hm⟩
          · exact Or.inr ⟨hw, deps', hlk, hm, hne⟩
    | none =>
      simp only [ih, List.mem_cons]
      constructor
      · rintro ⟨hw, hdeps⟩; exact ⟨Or.inr hw, hdeps⟩
      · rintro ⟨hw | hw, ⟨deps', hlk, hm, hne⟩⟩
        · subst hw; rw [hl] at hlk; cases hlk
        · exact ⟨hw, deps', hlk, hm, hne⟩

theorem printLeaves_eq_error (staticdep : Staticdep) (h : staticdep.content = []) :
    printLeaves staticdep = .error .zeroDivisionError := by
  simp [printLeaves, h]

theorem verifyLoop_fst_notFound_mem (slibContent : List (String × List String))
    (objectFiles : List String) (n : String) (work : List String) :
    VerifyEntry.notFound n ∈ (verifyLoop slibContent objectFiles work).1 ↔
      n ∈ work ∧ slibContent.lookup n = none := by
  induction work with
  | nil => simp [verifyLoop]
  | cons objectName rest ih =>
    rw [verifyLoop]
    cases hl : slibContent.lookup objectName with
    | some deps =>
      simp only [List.mem_cons, ih]
      constructor
      · rintro (h | ⟨hw, hlk⟩)
        · cases h
        · exact ⟨Or.inr hw, hlk⟩
      · rintro ⟨hw | hw, hlk⟩
        · subst hw; rw [hl] at hlk; cases hlk
        · exact Or.inr ⟨hw, hlk⟩
    | none =>
      simp only [List.mem_cons, ih, VerifyEntry.notFound.injEq]
      constructor
      · rintro (h | ⟨hw, hlk⟩)
        · subst h; exact ⟨Or.inl rfl, hl⟩
        · exact ⟨Or.inr hw, hlk⟩
      · rintro ⟨hw | hw, hlk⟩
        · exact Or.inl hw
        · exact Or.inr ⟨hw, hlk⟩

theorem verify_eq_ok (staticdep : Staticdep) (objectFiles : List String)
    (h : staticdep.content ≠ []) :
    verify staticdep objectFiles =
      .ok { entries := (verifyLoop staticdep.content objectFiles objectFiles).1
            incompleteObj := (verifyLoop staticdep.content objectFiles objectFiles).2
            complete := (verifyLoop staticdep.content objectFiles objectFiles).2.isEmpty } := by
  rcases hc : staticdep.content with _ | ⟨a, as⟩
  · exact absurd hc h
  · simp [verify, hc, pyMax]

theorem verify_eq_error (staticdep : Staticdep) (objectFiles : List String)
    (h : staticdep.content = []) :
    verify staticdep objectFiles = .error .valueError := by
  simp [verify, h, pyMax]

/-! ### Claims -/

/-- C1: for every report and list of names on which `verify` produces a
verdict, the verdict is COMPLETE iff `incompleteObj` (the `missing` map)
is empty, and `incompleteObj` holds exactly the pairs `(name, difference)`
for input names present in the content whose set-difference of declared
dependencies minus the input names is non-empty; membership in such a
difference is exactly "declared dependency absent from the input list". -/
theorem claim1_verdict_complete_iff_missing_empty (staticdep : Staticdep)
    (objectFiles : List String) (h : staticdep.content ≠ []) :
    ∃ r, verify staticdep objectFiles = .ok r ∧
      (r.complete = true ↔ r.incompleteObj = []) ∧
      (∀ n m, (n, m) ∈ r.incompleteObj ↔
        n ∈ objectFiles ∧ ∃ deps, staticdep.content.lookup n = some deps ∧
          m = difference deps objectFiles ∧ m ≠ []) ∧
      (∀ n m deps d, (n, m) ∈ r.incompleteObj →
        staticdep.content.lookup n = some deps →
        (d ∈ m ↔ d ∈ deps ∧ d ∉ objectFiles)) := by
  refine ⟨_, verify_eq_ok staticdep objectFiles h, ?_, ?_, ?_⟩
  · simp [List.isEmpty_iff]
  · intro n m
    exact verifyLoop_snd_mem _ _ _ _ _
  · intro n m deps d hm hlk
    rcases (verifyLoop_snd_mem _ _ _ _ _).mp hm with ⟨-, deps', hlk', hmd, -⟩
    rw [hlk] at hlk'
    obtain rfl : deps = deps' := Option.some.inj hlk'
    subst hmd
    exact mem_difference

/-- C1 witness: the theorem applied to a concrete report and input list. -/
theorem claim1_witness :
    (mkStaticdep rawW1).content ≠ [] ∧
    (∃ r, verify (mkStaticdep rawW1) ["b.o"] = .ok r ∧
      (r.complete = true ↔ r.incompleteObj = []) ∧
      (∀ n m, (n, m) ∈ r.incompleteObj ↔
        n ∈ ["b.o"] ∧ ∃ deps, (mkStaticdep rawW1).content.lookup n = some deps ∧
          m = difference deps ["b.o"] ∧ m ≠ []) ∧
      (∀ n m deps d, (n, m) ∈ r.incompleteObj →
        (mkStaticdep rawW1).content.lookup n = some deps →
        (d ∈ m ↔ d ∈ deps ∧ d ∉ ["b.o"]))) := by
  have h : (mkStaticdep rawW1).content ≠ [] := by decide
  exact ⟨h, claim1_verdict_complete_iff_missing_empty (mkStaticdep rawW1) ["b.o"] h⟩

/-- C2: the leaf list computed by `printLeaves` is exactly the names of
the non-empty object entries of the report whose dependency list is
empty, in the report's key order (a sublist of the key sequence); with
unique keys it has no duplicates, and the leaf count is the number of
such names. -/
theorem claim2_leaves_characterization (raw : RawReport)
    (h : (raw.content.map (·.1)).Nodup) :
    leavesOf (mkStaticdep raw).content =
      (raw.content.filter fun kv =>
        match kv.2 with
        | RawVal.withDeps [] => true
        | _ => false).map (·.1) ∧
    (leavesOf (mkStaticdep raw).content).Nodup ∧
    List.Sublist (leavesOf (mkStaticdep raw).content) (raw.content.map (·.1)) ∧
    (leavesOf (mkStaticdep raw).content).length =
      ((raw.content.filter fun kv =>
        match kv.2 with
        | RawVal.withDeps [] => true
        | _ => false).map (·.1)).length := by
  have heq := leavesOf_mkStaticdep raw
  have hsub : List.Sublist (leavesOf (mkStaticdep raw).content)
      (raw.content.map (·.1)) := by
    rw [heq]
    exact List.Sublist.map _ (List.filter_sublist _)
  exact ⟨heq, h.sublist hsub, hsub, by rw [heq]⟩

/-- C2 witness: the theorem applied to a report with a leaf, an empty
object file and a dependent object file. -/
theorem claim2_witness :
    (rawW2.content.map (·.1)).Nodup ∧
    (leavesOf (mkStaticdep rawW2).content =
      (rawW2.content.filter fun kv =>
        match kv.2 with
        | RawVal.withDeps [] => true
        | _ => false).map (·.1) ∧
    (leavesOf (mkStaticdep rawW2).content).Nodup ∧
    List.Sublist (leavesOf (mkStaticdep rawW2).content) (rawW2.content.map (·.1)) ∧
    (leavesOf (mkStaticdep rawW2).content).length =
      ((rawW2.content.filter fun kv =>
        match kv.2 with
        | RawVal.withDeps [] => true
        | _ => false).map (·.1)).length) := by
  have h : (rawW2.content.map (·.1)).Nodup := by decide
  exact ⟨h, claim2_leaves_characterization rawW2 h⟩

/-- C3: requesting the leaf classification on a report with zero
non-empty object files does not fail with a controlled
`DivisionUndefined` error: line 23 of the source divides by
`nbNonEmptyObj = 0` and the uncaught `ZeroDivisionError` propagates
(the spec itself flags this source behavior as a defect to fix). -/
theorem claim3_uncaught_zero_division :
    printLeaves (mkStaticdep rawC3) = .error PyError.zeroDivisionError := rfl

/-- C4 counterexample: in the report `rawC4`, `"a.o"` is an `Empty`
entry, yet verifying `["a.o"]` records the "not found" entry for it,
not `("a.o", [])`: `main` (line 126) removes `EMPTY` entries from the
content before `verify` looks names up. -/
theorem claim4_counterexample :
    (verify (mkStaticdep rawC4) ["a.o"]).toOption.map VerifyResult.entries =
      some [VerifyEntry.notFound "a.o"] ∧
    VerifyEntry.notFound "a.o" ≠ VerifyEntry.found "a.o" [] := by
  exact ⟨rfl, by decide⟩

/-- C4 (amended): on a report with at least one non-empty object entry
(otherwise `verify` aborts with the line-53 `ValueError` before
recording anything, see C10), an input name that names an `Empty` entry
of the report is treated as absent by the verifier: it gets a
"not found" entry and never appears in the missing map, because `main`
strips `EMPTY` entries from the content before verification. -/
theorem claim4_empty_entry_not_found (raw : RawReport) (objectFiles : List String)
    (n : String) (hnd : (raw.content.map (·.1)).Nodup)
    (hmem : (n, RawVal.empty) ∈ raw.content) (hn : n ∈ objectFiles)
    (h : (mkStaticdep raw).content ≠ []) :
    ∃ r, verify (mkStaticdep raw) objectFiles = .ok r ∧
      VerifyEntry.notFound n ∈ r.entries ∧ ∀ m, (n, m) ∉ r.incompleteObj := by
  have hlk := lookup_mkStaticdep_empty_entry raw n hnd hmem
  refine ⟨_, verify_eq_ok _ objectFiles h, ?_, ?_⟩
  · exact (verifyLoop_fst_notFound_mem _ _ _ _).mpr ⟨hn, hlk⟩
  · intro m hm
    rcases (verifyLoop_snd_mem _ _ _ _ _).mp hm with ⟨-, deps, hlk', -, -⟩
    rw [hlk] at hlk'
    cases hlk'

/-- C4 witness: the amended theorem applied to the concrete report with
an empty `a.o` and a non-empty `b.o`, verifying `["a.o", "b.o"]`. -/
theorem claim4_witness :
    (rawC4.content.map (·.1)).Nodup ∧
    ("a.o", RawVal.empty) ∈ rawC4.content ∧
    "a.o" ∈ ["a.o", "b.o"] ∧
    (mkStaticdep rawC4).content ≠ [] ∧
    (∃ r, verify (mkStaticdep rawC4) ["a.o", "b.o"] = .ok r ∧
      VerifyEntry.notFound "a.o" ∈ r.entries ∧
      ∀ m, ("a.o", m) ∉ r.incompleteObj) := by
  have h1 : (rawC4.content.map (·.1)).Nodup := by decide
  have h2 : ("a.o", RawVal.empty) ∈ rawC4.content := by decide
  have h3 : "a.o" ∈ ["a.o", "b.o"] := by decide
  have h4 : (mkStaticdep rawC4).content ≠ [] := by decide
  exact ⟨h1, h2, h3, h4,
    claim4_empty_entry_not_found rawC4 ["a.o", "b.o"] "a.o" h1 h2 h3 h4⟩

/-- C5 counterexample: on a report with no non-empty object file, the
verifier does not record a "not found" entry for the absent name
`"x.o"` and continue — it aborts with the `ValueError` from line 53
before producing any result. -/
theorem claim5_counterexample :
    verify (mkStaticdep rawC5) ["x.o"] = .error PyError.valueError ∧
    (verify (mkStaticdep rawC5) ["x.o"]).toOption = none := ⟨rfl, rfl⟩

/-- C5 (amended): for every report with at least one non-empty object
file, each input name absent from the content gets a "not found" entry,
is excluded from the completeness check, and a list of only absent names
yields an empty `missing` and verdict COMPLETE. -/
theorem claim5_absent_names (staticdep : Staticdep) (objectFiles : List String)
    (h : staticdep.content ≠ []) :
    ∃ r, verify staticdep objectFiles = .ok r ∧
      (∀ n, n ∈ objectFiles → staticdep.content.lookup n = none →
        VerifyEntry.notFound n ∈ r.entries ∧ ∀ m, (n, m) ∉ r.incompleteObj) ∧
      ((∀ n ∈ objectFiles, staticdep.content.lookup n = none) →
        r.incompleteObj = [] ∧ r.complete = true) := by
  refine ⟨_, verify_eq_ok staticdep objectFiles h, ?_, ?_⟩
  · intro n hn hlk
    refine ⟨(verifyLoop_fst_notFound_mem _ _ _ _).mpr ⟨hn, hlk⟩, ?_⟩
    intro m hm
    rcases (verifyLoop_snd_mem _ _ _ _ _).mp hm with ⟨-, deps, hlk', -, -⟩
    rw [hlk] at hlk'
    cases hlk'
  · intro hall
    have hnil : (verifyLoop staticdep.content objectFiles objectFiles).2 = [] := by
      refine List.eq_nil_iff_forall_not_mem.mpr ?_
      rintro ⟨n, m⟩ hm
      rcases (verifyLoop_snd_mem _ _ _ _ _).mp hm with ⟨hw, deps, hlk', -, -⟩
      rw [hall n hw] at hlk'
      cases hlk'
    simp [hnil]

/-- C5 witness: the amended theorem applied to a concrete report with
one non-empty object file and an input list of one absent name. -/
theorem claim5_witness :
    (mkStaticdep rawW5).content ≠ [] ∧
    (∃ r, verify (mkStaticdep rawW5) ["x.o"] = .ok r ∧
      (∀ n, n ∈ ["x.o"] → (mkStaticdep rawW5).content.lookup n = none →
        VerifyEntry.notFound n ∈ r.entries ∧ ∀ m, (n, m) ∉ r.incompleteObj) ∧
      ((∀ n ∈ ["x.o"], (mkStaticdep rawW5).content.lookup n = none) →
        r.incompleteObj = [] ∧ r.complete = true)) := by
  have h : (mkStaticdep rawW5).content ≠ [] := by decide
  exact ⟨h, claim5_absent_names (mkStaticdep rawW5) ["x.o"] h⟩

/-- C7: after `main`'s partition, the empty and non-empty counts add up
to the total number of object files in the report, the leaf count is at
most the non-empty count, and the non-empty count is at most the total. -/
theorem claim7_count_invariants (raw : RawReport) :
    (mkStaticdep raw).empty.length + (mkStaticdep raw).content.length =
      raw.content.length ∧
    (leavesOf (mkStaticdep raw).content).length ≤ (mkStaticdep raw).content.length ∧
    (mkStaticdep raw).content.length ≤ raw.content.length := by
  refine ⟨mkStaticdep_length_partition raw, ?_, ?_⟩
  · simp only [leavesOf, List.length_map]
    exact List.length_filter_le _ _
  · simp only [mkStaticdep]
    exact List.length_filterMap_le _ _

/-- C8: an input name never appears in its own missing-dependency set:
line 67 subtracts the whole input list, so a self-dependency of a listed
object file is always satisfied; no special casing of cycles exists. -/
theorem claim8_no_self_missing (staticdep : Staticdep) (objectFiles : List String)
    (h : staticdep.content ≠ []) :
    ∃ r, verify staticdep objectFiles = .ok r ∧
      ∀ n m, n ∈ objectFiles → (n, m) ∈ r.incompleteObj → n ∉ m := by
  refine ⟨_, verify_eq_ok staticdep objectFiles h, ?_⟩
  intro n m hn hm hself
  rcases (verifyLoop_snd_mem _ _ _ _ _).mp hm with ⟨-, deps, -, hmd, -⟩
  subst hmd
  exact (mem_difference.mp hself).2 hn

/-- C8 witness: a report whose object file `s.o` depends on itself and
on `t.o`, verified against the list `["s.o"]`. -/
theorem claim8_witness :
    (mkStaticdep rawW8).content ≠ [] ∧
    (∃ r, verify (mkStaticdep rawW8) ["s.o"] = .ok r ∧
      ∀ n m, n ∈ ["s.o"] → (n, m) ∈ r.incompleteObj → n ∉ m) := by
  have h : (mkStaticdep rawW8).content ≠ [] := by decide
  exact ⟨h, claim8_no_self_missing (mkStaticdep rawW8) ["s.o"] h⟩

/-- C9 counterexample: on a report with no non-empty object file,
verifying the empty list of names does not return an empty result — it
aborts with the `ValueError` from line 53. -/
theorem claim9_counterexample :
    verify (mkStaticdep rawC9) [] = .error PyError.valueError ∧
    (verify (mkStaticdep rawC9) []).toOption = none := ⟨rfl, rfl⟩

/-- C9 (amended): for every report with at least one non-empty object
file, verifying an empty list of names returns an explicit empty result:
zero entries, zero missing dependencies, verdict COMPLETE, no error. -/
theorem claim9_empty_list (staticdep : Staticdep) (h : staticdep.content ≠ []) :
    ∃ r, verify staticdep [] = .ok r ∧
      r.entries = [] ∧ r.incompleteObj = [] ∧ r.complete = true := by
  refine ⟨_, verify_eq_ok staticdep [] h, ?_, ?_, ?_⟩ <;> simp [verifyLoop]

/-- C9 witness: the amended theorem applied to a concrete report with
one non-empty object file. -/
theorem claim9_witness :
    (mkStaticdep rawW9).content ≠ [] ∧
    (∃ r, verify (mkStaticdep rawW9) [] = .ok r ∧
      r.entries = [] ∧ r.incompleteObj = [] ∧ r.complete = true) := by
  have h : (mkStaticdep rawW9).content ≠ [] := by decide
  exact ⟨h, claim9_empty_list (mkStaticdep rawW9) h⟩

/-- C10: on every report whose object files are all empty (so the
content handed to `verify` is empty), `verify` fails with the
`ValueError` raised by `max` over the empty sequence of name lengths at
line 53, whatever the input list is. -/
theorem claim10_verify_fails_no_nonempty (raw : RawReport) (objectFiles : List String)
    (h : ∀ kv ∈ raw.content, kv.2 = RawVal.empty) :
    verify (mkStaticdep raw) objectFiles = .error PyError.valueError := by
  apply verify_eq_error
  simp only [mkStaticdep]
  rw [List.filterMap_eq_nil_iff]
  intro kv hkv
  rw [h kv hkv]

/-- C10 witness: the theorem applied to a report with two empty object
files and a non-empty input list. -/
theorem claim10_witness :
    (∀ kv ∈ rawC10.content, kv.2 = RawVal.empty) ∧
    verify (mkStaticdep rawC10) ["y.o"] = .error PyError.valueError := by
  have h : ∀ kv ∈ rawC10.content, kv.2 = RawVal.empty := by decide
  exact ⟨h, claim10_verify_fails_no_nonempty rawC10 ["y.o"] h⟩

end Sdep
